import Mathlib

/-!
Verification of the MoneyMe QA system core (shallow embedding).

Source files embedded here:
- src/core/conversation_manager.py  (ConversationManager)
- src/core/document_tracker.py      (DocumentTracker)
- src/core/document_service.py      (DocumentService)
- src/core/vector_store_service.py  (VectorStoreService)
- src/core/llm_handler.py           (LLMHandler._evaluate_answer_quality)
- src/core/qa_system.py             (QASystem.clear_conversation, QASystem.process_chat_query)

Modelling conventions: wall-clock timestamps are integers; Python dicts are
association lists whose keys are unique in every state the program can reach;
`collections.deque(maxlen=m)` is a list from which elements are dropped on the
left so that the length never exceeds `m`; external collaborators (the FAISS
similarity search, the JSON codec, md5, the file system, the LLM call) are
function parameters of the embedded operations.
-/

/-- Python `str.split()` helper: accumulate the current word (reversed in
`acc`) while walking the character list, breaking on whitespace and dropping
empty fragments. -/
def wordsAux : List Char → List Char → List (List Char)
  | [], acc => if acc.isEmpty then [] else [acc.reverse]
  | c :: rest, acc =>
    if c.isWhitespace then
      if acc.isEmpty then wordsAux rest [] else acc.reverse :: wordsAux rest []
    else wordsAux rest (c :: acc)

/-- Python `str.split()` with no separator: whitespace-separated words,
empty fragments dropped. -/
def pyWords (s : String) : List (List Char) := wordsAux s.toList []

/-- Python substring containment `needle in hay` on character lists. -/
def strIn (needle : List Char) : List Char → Bool
  | [] => needle.isEmpty
  | c :: rest => needle.isPrefixOf (c :: rest) || strIn needle rest

/-- Fuel-indexed worker for `removeAll`; the fuel is an upper bound on the
number of characters still to be consumed, so recursion is structural. -/
def removeAllAux (pat : List Char) : Nat → List Char → List Char
  | _, [] => []
  | 0, l => l
  | fuel + 1, c :: rest =>
    if pat ≠ [] ∧ pat.isPrefixOf (c :: rest) then
      removeAllAux pat fuel (rest.drop (pat.length - 1))
    else
      c :: removeAllAux pat fuel rest

/-- Python `str.replace(pat, "")`: remove every occurrence of `pat`,
scanning left to right without overlap. -/
def removeAll (pat l : List Char) : List Char :=
  removeAllAux pat l.length l

/-- Hexadecimal digit test used by UUID parsing. -/
def isHexChar (c : Char) : Bool :=
  c.isDigit || ('a' ≤ c && c ≤ 'f') || ('A' ≤ c && c ≤ 'F')

/-- Modelled from the Python standard library `uuid.UUID(hex)` constructor used
by qa_system.py: drop every occurrence of `urn:` and `uuid:`, strip curly
braces from both ends, drop all hyphens, and require exactly 32 hexadecimal
digits. -/
def uuid_valid (s : String) : Bool :=
  let cs := removeAll "uuid:".toList (removeAll "urn:".toList s.toList)
  let cs := cs.dropWhile (fun c => c == '{' || c == '}')
  let cs := (cs.reverse.dropWhile (fun c => c == '{' || c == '}')).reverse
  let cs := cs.filter (fun c => !(c == '-'))
  cs.length == 32 && cs.all isHexChar

/-! ## ConversationManager (src/core/conversation_manager.py) -/

/-- One entry of a session history: the dict
`{"role": role, "content": content, "timestamp": time.time()}`. -/
structure Message where
  role : String
  content : String
  timestamp : Int
  deriving Repr, DecidableEq

/-- First-match lookup in an association list, the read access of a Python
dict (whose keys are unique in any reachable state). -/
def lookupSid {α : Type} : List (String × α) → String → Option α
  | [], _ => none
  | (k, v) :: rest, sid => if k = sid then some v else lookupSid rest sid

/-- `d[k] = v` on an association list: replace the first binding of the key,
or append a new binding. -/
def dictSet {α : Type} : List (String × α) → String → α → List (String × α)
  | [], sid, v => [(sid, v)]
  | (k, v') :: rest, sid, v =>
    if k = sid then (sid, v) :: rest else (k, v') :: dictSet rest sid v

/-- `collections.deque(maxlen := m).append x`: append on the right, then drop
from the left until at most `m` entries remain. -/
def dequeAppend {α : Type} (m : Nat) (q : List α) (x : α) : List α :=
  let q2 := q ++ [x]
  q2.drop (q2.length - m)

/-- State of `ConversationManager`: the configured bound and the dict from
session id to message deque (oldest first). -/
structure ConversationManager where
  max_history : Nat
  conversations : List (String × List Message)
  deriving Repr, DecidableEq

/-- `ConversationManager.add_message`: create the session deque on first use
(`deque(maxlen=self.max_history)`), then append the new message. -/
def ConversationManager.add_message (cm : ConversationManager)
    (session_id role content : String) (now : Int) : ConversationManager :=
  let q := (lookupSid cm.conversations session_id).getD []
  { cm with
    conversations :=
      dictSet cm.conversations session_id
        (dequeAppend cm.max_history q ⟨role, content, now⟩) }

/-- `ConversationManager.get_conversation`: the session history, `[]` for an
unknown session. -/
def ConversationManager.get_conversation (cm : ConversationManager)
    (session_id : String) : List Message :=
  (lookupSid cm.conversations session_id).getD []

/-- `ConversationManager.clear_conversation`: `del` the session entry when
present; a total function, an unknown session is a no-op. -/
def ConversationManager.clear_conversation (cm : ConversationManager)
    (session_id : String) : ConversationManager :=
  { cm with conversations := cm.conversations.filter (fun p => !(p.1 == session_id)) }

/-- `ConversationManager.prune_old_conversations`: delete every session whose
deque is nonempty and whose oldest message is older than `max_age`. -/
def ConversationManager.prune_old_conversations (cm : ConversationManager)
    (now max_age : Int) : ConversationManager :=
  { cm with
    conversations := cm.conversations.filter (fun p =>
      match p.2 with
      | [] => true
      | oldest :: _ => !(decide (max_age < now - oldest.timestamp))) }

/-- Replay a list of `add_message` requests `(session_id, role, content, time)`
against a manager state. -/
def applyRequests (cm : ConversationManager) :
    List (String × String × String × Int) → ConversationManager
  | [] => cm
  | (sid, role, content, t) :: rest =>
    applyRequests (cm.add_message sid role content t) rest

/-! ## Association-list lemmas (Python dict semantics) -/

theorem lookupSid_dictSet_self {α : Type} (l : List (String × α)) (k : String) (v : α) :
    lookupSid (dictSet l k v) k = some v := by
  induction l with
  | nil => simp [dictSet, lookupSid]
  | cons p rest ih =>
    obtain ⟨k', v'⟩ := p
    by_cases h : k' = k
    · simp [dictSet, h, lookupSid]
    · simp [dictSet, h, lookupSid, ih]

theorem lookupSid_dictSet_ne {α : Type} (l : List (String × α)) (k k' : String) (v : α)
    (h : k' ≠ k) : lookupSid (dictSet l k v) k' = lookupSid l k' := by
  induction l with
  | nil => simp [dictSet, lookupSid, Ne.symm h]
  | cons p rest ih =>
    obtain ⟨k0, v0⟩ := p
    by_cases h0 : k0 = k
    · subst h0
      simp [dictSet, lookupSid, Ne.symm h]
    · simp only [dictSet, if_neg h0, lookupSid]
      by_cases h1 : k0 = k'
      · simp [h1]
      · simp [h1, ih]

theorem lookupSid_filter_none {α : Type} (Q : String × α → Bool) (l : List (String × α))
    (k : String) (h : lookupSid l k = none) : lookupSid (l.filter Q) k = none := by
  induction l with
  | nil => simp [lookupSid]
  | cons p rest ih =>
    obtain ⟨k', v'⟩ := p
    simp only [lookupSid] at h
    by_cases hk : k' = k
    · simp [hk] at h
    · simp only [if_neg hk] at h
      simp only [List.filter]
      cases hq : Q (k', v') with
      | true => simp only [lookupSid, if_neg hk]; exact ih h
      | false => exact ih h

theorem lookupSid_filter_keep {α : Type} (Q : String × α → Bool) (l : List (String × α))
    (k : String) (v : α) (hl : lookupSid l k = some v) (hq : Q (k, v) = true) :
    lookupSid (l.filter Q) k = some v := by
  induction l with
  | nil => simp [lookupSid] at hl
  | cons p rest ih =>
    obtain ⟨k', v'⟩ := p
    simp only [lookupSid] at hl
    by_cases hk : k' = k
    · subst hk
      rw [if_pos rfl] at hl
      have hv : v' = v := Option.some.inj hl
      subst hv
      simp [List.filter, hq, lookupSid]
    · rw [if_neg hk] at hl
      simp only [List.filter]
      cases hq' : Q (k', v') with
      | true => simp only [lookupSid, if_neg hk]; exact ih hl
      | false => exact ih hl

theorem lookupSid_none_of_not_mem {α : Type} (l : List (String × α)) (k : String)
    (h : k ∉ l.map Prod.fst) : lookupSid l k = none := by
  induction l with
  | nil => simp [lookupSid]
  | cons p rest ih =>
    obtain ⟨k', v'⟩ := p
    simp only [List.map, List.mem_cons] at h
    push_neg at h
    simp only [lookupSid, if_neg (Ne.symm h.1)]
    exact ih h.2

theorem lookupSid_filter_drop {α : Type} (Q : String × α → Bool) (l : List (String × α))
    (k : String) (v : α) (hnd : (l.map Prod.fst).Nodup)
    (hl : lookupSid l k = some v) (hq : Q (k, v) = false) :
    lookupSid (l.filter Q) k = none := by
  induction l with
  | nil => simp [lookupSid] at hl
  | cons p rest ih =>
    obtain ⟨k', v'⟩ := p
    simp only [List.map, List.nodup_cons] at hnd
    simp only [lookupSid] at hl
    by_cases hk : k' = k
    · subst hk
      rw [if_pos rfl] at hl
      have hv : v' = v := Option.some.inj hl
      subst hv
      simp only [List.filter, hq]
      exact lookupSid_filter_none Q rest k' (lookupSid_none_of_not_mem rest k' hnd.1)
    · rw [if_neg hk] at hl
      simp only [List.filter]
      cases hq' : Q (k', v') with
      | true => simp only [lookupSid, if_neg hk]; exact ih hnd.2 hl
      | false => exact ih hnd.2 hl

/-! ## Bounded-history lemmas -/

theorem dequeAppend_length_le {α : Type} (m : Nat) (q : List α) (x : α) :
    (dequeAppend m q x).length ≤ m := by
  simp only [dequeAppend, List.length_drop, List.length_append, List.length_singleton]
  omega

theorem add_message_max_history (cm : ConversationManager)
    (sid role content : String) (t : Int) :
    (cm.add_message sid role content t).max_history = cm.max_history := rfl

theorem add_message_get_self (cm : ConversationManager)
    (sid role content : String) (t : Int) :
    (cm.add_message sid role content t).get_conversation sid
      = dequeAppend cm.max_history (cm.get_conversation sid) ⟨role, content, t⟩ := by
  simp [ConversationManager.add_message, ConversationManager.get_conversation,
    lookupSid_dictSet_self]

theorem add_message_get_other (cm : ConversationManager)
    (sid sid' role content : String) (t : Int) (h : sid' ≠ sid) :
    (cm.add_message sid role content t).get_conversation sid'
      = cm.get_conversation sid' := by
  simp [ConversationManager.add_message, ConversationManager.get_conversation,
    lookupSid_dictSet_ne _ _ _ _ h]

theorem add_message_bound (cm : ConversationManager) (sid role content : String) (t : Int)
    (h : ∀ s, (cm.get_conversation s).length ≤ cm.max_history) :
    ∀ s, ((cm.add_message sid role content t).get_conversation s).length ≤ cm.max_history := by
  intro s
  by_cases hs : s = sid
  · subst hs
    rw [add_message_get_self]
    exact dequeAppend_length_le _ _ _
  · rw [add_message_get_other cm sid s role content t hs]
    exact h s

theorem applyRequests_max_history (reqs : List (String × String × String × Int)) :
    ∀ cm : ConversationManager, (applyRequests cm reqs).max_history = cm.max_history := by
  induction reqs with
  | nil => intro cm; rfl
  | cons r rest ih =>
    intro cm
    obtain ⟨sid, role, content, t⟩ := r
    simp only [applyRequests]
    rw [ih]
    rfl

theorem applyRequests_bound (reqs : List (String × String × String × Int)) :
    ∀ cm : ConversationManager,
      (∀ s, (cm.get_conversation s).length ≤ cm.max_history) →
      ∀ s, ((applyRequests cm reqs).get_conversation s).length ≤ cm.max_history := by
  induction reqs with
  | nil => intro cm h s; exact h s
  | cons r rest ih =>
    intro cm h s
    obtain ⟨sid, role, content, t⟩ := r
    simp only [applyRequests]
    exact ih _ (add_message_bound cm sid role content t h) s

theorem lookupSid_filter_key_false {α : Type} (Q : String × α → Bool)
    (l : List (String × α)) (k : String) (hq : ∀ v, Q (k, v) = false) :
    lookupSid (l.filter Q) k = none := by
  induction l with
  | nil => simp [lookupSid]
  | cons p rest ih =>
    obtain ⟨k', v'⟩ := p
    simp only [List.filter]
    cases hq' : Q (k', v') with
    | true =>
      simp only [lookupSid]
      by_cases hk : k' = k
      · subst hk; rw [hq v'] at hq'; exact absurd hq' (by simp)
      · rw [if_neg hk]; exact ih
    | false => exact ih

theorem not_mem_of_lookupSid_none {α : Type} (l : List (String × α)) (k : String)
    (h : lookupSid l k = none) : k ∉ l.map Prod.fst := by
  induction l with
  | nil => simp
  | cons p rest ih =>
    obtain ⟨k', v'⟩ := p
    simp only [lookupSid] at h
    by_cases hk : k' = k
    · rw [if_pos hk] at h; exact absurd h (by simp)
    · rw [if_neg hk] at h
      simp only [List.map, List.mem_cons]
      push_neg
      exact ⟨Ne.symm hk, ih h⟩

/-- C2: for every session and after any number of `add_message` calls the
stored history never exceeds the configured maximum, and an append onto a
full history evicts the oldest entry before the new one is added. -/
theorem conversation_history_bounded :
    (∀ (m : Nat) (reqs : List (String × String × String × Int)) (sid : String),
        ((applyRequests ⟨m, []⟩ reqs).get_conversation sid).length ≤ m)
  ∧ (∀ (cm : ConversationManager) (sid role content : String) (t : Int),
        0 < cm.max_history →
        (cm.get_conversation sid).length = cm.max_history →
        (cm.add_message sid role content t).get_conversation sid
          = (cm.get_conversation sid).drop 1 ++ [⟨role, content, t⟩]) := by
  constructor
  · intro m reqs sid
    have h0 : ∀ s, ((⟨m, []⟩ : ConversationManager).get_conversation s).length ≤ m := by
      intro s
      simp [ConversationManager.get_conversation, lookupSid]
    exact applyRequests_bound reqs ⟨m, []⟩ h0 sid
  · intro cm sid role content t hpos hlen
    rw [add_message_get_self]
    simp only [dequeAppend, List.length_append, List.length_singleton]
    have hdrop : (cm.get_conversation sid).length + 1 - cm.max_history = 1 := by omega
    rw [hdrop, List.drop_append_of_le_length (by omega)]

/-- Closed witness for C2 at a concrete manager with bound 2 and bound 1. -/
theorem conversation_history_bounded_witness :
    ((applyRequests ⟨2, []⟩
        [("s", "user", "q1", 0), ("s", "assistant", "a1", 1), ("s", "user", "q2", 2)]
      ).get_conversation "s").length ≤ 2
  ∧ ((⟨1, [("s", [⟨"user", "a", 0⟩])]⟩ : ConversationManager).add_message
        "s" "user" "b" 5).get_conversation "s" = [⟨"user", "b", 5⟩] := by
  refine ⟨conversation_history_bounded.1 2 _ "s", ?_⟩
  have h := conversation_history_bounded.2 ⟨1, [("s", [⟨"user", "a", 0⟩])]⟩
    "s" "user" "b" 5 (by decide) (by decide)
  exact h.trans (by decide)

/-- C5: `prune_old_conversations` removes a session in its entirety exactly
when the age of its oldest retained entry exceeds `max_age`; a session whose
oldest entry is within `max_age` keeps its full history unchanged, so no
session is ever partially trimmed. -/
theorem prune_removes_iff_oldest_expired :
    ∀ (cm : ConversationManager) (now max_age : Int) (sid : String)
      (oldest : Message) (rest : List Message),
      (cm.conversations.map Prod.fst).Nodup →
      lookupSid cm.conversations sid = some (oldest :: rest) →
      lookupSid (cm.prune_old_conversations now max_age).conversations sid
        = if max_age < now - oldest.timestamp then none else some (oldest :: rest) := by
  intro cm now max_age sid oldest rest hnd hl
  simp only [ConversationManager.prune_old_conversations]
  by_cases hage : max_age < now - oldest.timestamp
  · rw [if_pos hage]
    apply lookupSid_filter_drop _ _ _ _ hnd hl
    simp [hage]
  · rw [if_neg hage]
    apply lookupSid_filter_keep _ _ _ _ hl
    simp [hage]

/-- Closed witness for C5: a session whose only message is 4000 seconds old is
removed by a prune with `max_age = 3600`. -/
theorem prune_removes_iff_oldest_expired_witness :
    lookupSid ((ConversationManager.mk 10 [("s", [⟨"user", "x", 0⟩])]
      ).prune_old_conversations 4000 3600).conversations "s" = none := by
  have h := prune_removes_iff_oldest_expired ⟨10, [("s", [⟨"user", "x", 0⟩])]⟩
    4000 3600 "s" ⟨"user", "x", 0⟩ [] (by decide) (by decide)
  exact h.trans (by decide)

/-! ## QASystem.clear_conversation (src/core/qa_system.py, lines 161-172) -/

/-- `QASystem.clear_conversation`: validate the session id with `uuid.UUID`
(a malformed id raises `ValueError`, which the method re-raises), raise
`QASystemError("Session {id} not found")` when the manager holds no history
for the id, and otherwise delegate to
`ConversationManager.clear_conversation`. -/
def QASystem.clear_conversation (cm : ConversationManager) (session_id : String) :
    Except String ConversationManager :=
  if uuid_valid session_id then
    if (cm.get_conversation session_id).isEmpty then
      .error ("Session " ++ session_id ++ " not found")
    else
      .ok (cm.clear_conversation session_id)
  else
    .error "badly formed hexadecimal UUID string"

/-- C6 counterexample: at the public `QASystem` interface, clearing an unknown
(or already cleared) session IS an error — with an empty conversation store
and a well-formed UUID, `clear_conversation` raises the session-not-found
error instead of being an idempotent no-op. -/
theorem qa_clear_unknown_session_errors :
    QASystem.clear_conversation ⟨10, []⟩ "123e4567-e89b-12d3-a456-426614174000"
      = .error "Session 123e4567-e89b-12d3-a456-426614174000 not found" := by
  rfl

/-- C6 amended: at the `ConversationManager` layer, `clear_conversation` is
total (never an error), clearing an unknown session is a no-op, and after any
clear the session's history is empty; the public `QASystem.clear_conversation`
wrapper, however, raises the session-not-found error whenever the session is
unknown or already cleared. -/
theorem clear_conversation_amended :
    (∀ (cm : ConversationManager) (sid : String),
        (cm.clear_conversation sid).get_conversation sid = []
      ∧ (lookupSid cm.conversations sid = none → cm.clear_conversation sid = cm))
  ∧ (∀ (cm : ConversationManager) (sid : String),
        uuid_valid sid = true →
        cm.get_conversation sid = [] →
        QASystem.clear_conversation cm sid
          = .error ("Session " ++ sid ++ " not found")) := by
  constructor
  · intro cm sid
    constructor
    · simp only [ConversationManager.clear_conversation,
        ConversationManager.get_conversation]
      rw [lookupSid_filter_key_false _ _ _ (fun v => by simp)]
      rfl
    · intro hnone
      have hall : ∀ p ∈ cm.conversations, (!(p.1 == sid)) = true := by
        intro p hp
        have hne := not_mem_of_lookupSid_none cm.conversations sid hnone
        simp only [Bool.not_eq_eq_eq_not, Bool.not_true, beq_eq_false_iff_ne]
        intro hps
        exact hne (List.mem_map.mpr ⟨p, hp, hps⟩)
      obtain ⟨m, conv⟩ := cm
      simp only [ConversationManager.clear_conversation]
      rw [List.filter_eq_self.mpr hall]
  · intro cm sid hu hempty
    simp only [QASystem.clear_conversation, hu, if_pos, hempty]
    rfl

/-- Closed witness for C6's amended theorem at concrete inputs. -/
theorem clear_conversation_amended_witness :
    ((ConversationManager.mk 10 [("a", [⟨"user", "hi", 0⟩])]).clear_conversation
        "a").get_conversation "a" = []
  ∧ QASystem.clear_conversation ⟨10, [("a", [⟨"user", "hi", 0⟩])]⟩
        "123e4567-e89b-12d3-a456-426614174000"
      = .error "Session 123e4567-e89b-12d3-a456-426614174000 not found" := by
  refine ⟨(clear_conversation_amended.1 ⟨10, [("a", [⟨"user", "hi", 0⟩])]⟩ "a").1, ?_⟩
  exact clear_conversation_amended.2 ⟨10, [("a", [⟨"user", "hi", 0⟩])]⟩
    "123e4567-e89b-12d3-a456-426614174000" (by decide) (by decide)

/-! ## DocumentTracker (src/core/document_tracker.py) and
DocumentService (src/core/document_service.py)

The SQLite `documents` table is a list of records in insertion order, the
`UNIQUE` column `file_hash` being guarded by the explicit check-then-insert in
`add_document`. The md5 digest and the file system are parameters `hashFn`
and `fs` (same bytes, same digest). -/

/-- One row of the `documents` table. -/
structure DocumentRecord where
  file_hash : String
  file_path : String
  file_name : String
  deriving Repr, DecidableEq

/-- `DocumentTracker.is_document_processed`: hash the file's bytes and look
the digest up in the registry; reading a missing file is an error. -/
def DocumentTracker.is_document_processed (hashFn : List Nat → String)
    (fs : String → Option (List Nat)) (registry : List DocumentRecord)
    (file_path : String) : Except String Bool :=
  match fs file_path with
  | none => .error ("FileNotFoundError: " ++ file_path)
  | some bytes => .ok (registry.any (fun r => r.file_hash == hashFn bytes))

/-- `DocumentTracker.add_document`: check-then-insert keyed by the content
hash. The duplicate branch executes `logger.info(...)`, but document_tracker.py
never imports or defines `logger`, so that branch raises `NameError` instead
of performing the intended warning-level skip. -/
def DocumentTracker.add_document (hashFn : List Nat → String)
    (fs : String → Option (List Nat)) (registry : List DocumentRecord)
    (file_path file_name : String) : Except String (List DocumentRecord) :=
  match fs file_path with
  | none => .error ("FileNotFoundError: " ++ file_path)
  | some bytes =>
    let file_hash := hashFn bytes
    if registry.any (fun r => r.file_hash == file_hash) then
      .error "NameError: name logger is not defined"
    else
      .ok (registry ++ [⟨file_hash, file_path, file_name⟩])

/-- A chunk dict `{content, metadata: {type, header | headers}}` as produced by
the PDF parser and consumed by the vector store; absent keys are `none`
(`dict.get` supplies the defaults at each use site). -/
structure Chunk where
  content : Option String
  ctype : Option String
  header : Option String
  headers : Option (List String)
  deriving Repr, DecidableEq

/-- State owned by `DocumentService`: the tracker registry and the
last-processed-PDF pointer file. -/
structure DocumentServiceState where
  registry : List DocumentRecord
  last_pdf : Option String
  deriving Repr, DecidableEq

/-- Python `pdf_path.lower().endswith(".pdf")`. -/
def endsWithPdfLower (p : String) : Bool :=
  ".pdf".toList.isSuffixOf (p.toList.map Char.toLower)

/-- `DocumentService.process_document`: existence check, extension check,
idempotent short-circuit on an already-processed hash, then parse, register
and record the last-processed pointer. `parse` is the external PDF parser. -/
def DocumentService.process_document (hashFn : List Nat → String)
    (fs : String → Option (List Nat))
    (parse : String → Except String (List Chunk))
    (st : DocumentServiceState) (pdf_path original_filename : String) :
    Except String (List Chunk × DocumentServiceState) :=
  match fs pdf_path with
  | none => .error ("PDF file not found: " ++ pdf_path)
  | some _ =>
    if !(endsWithPdfLower pdf_path) then
      .error "The file must be a PDF"
    else
      match DocumentTracker.is_document_processed hashFn fs st.registry pdf_path with
      | .error e => .error e
      | .ok true => .ok ([], st)
      | .ok false =>
        match parse pdf_path with
        | .error e => .error e
        | .ok chunks =>
          match DocumentTracker.add_document hashFn fs st.registry
              pdf_path original_filename with
          | .error e => .error e
          | .ok reg => .ok (chunks, ⟨reg, some pdf_path⟩)

/-- C3: the code is wrong here. `add_document` on a file whose content hash is
already registered does not perform the documented warning-level no-op: the
duplicate branch references the undefined name `logger`, so the call raises
`NameError` to the caller. -/
theorem add_document_duplicate_hash_raises :
    DocumentTracker.add_document (fun _ => "h3x") (fun _ => some [1, 2, 3])
      [⟨"h3x", "old.pdf", "old.pdf"⟩] "dup.pdf" "dup.pdf"
      = .error "NameError: name logger is not defined" := rfl

theorem process_document_short_circuit (hashFn : List Nat → String)
    (fs : String → Option (List Nat)) (parse : String → Except String (List Chunk))
    (st : DocumentServiceState) (p n : String) (bytes : List Nat)
    (hfs : fs p = some bytes) (hpdf : endsWithPdfLower p = true)
    (hany : st.registry.any (fun r => r.file_hash == hashFn bytes) = true) :
    DocumentService.process_document hashFn fs parse st p n = .ok ([], st) := by
  simp only [DocumentService.process_document, DocumentTracker.is_document_processed,
    hfs, hpdf, hany, Bool.not_true, Bool.false_eq_true, if_false]

theorem process_document_fresh (hashFn : List Nat → String)
    (fs : String → Option (List Nat)) (parse : String → Except String (List Chunk))
    (st : DocumentServiceState) (p n : String) (bytes : List Nat) (chunks : List Chunk)
    (hfs : fs p = some bytes) (hpdf : endsWithPdfLower p = true)
    (hparse : parse p = .ok chunks)
    (hany : st.registry.any (fun r => r.file_hash == hashFn bytes) = false) :
    DocumentService.process_document hashFn fs parse st p n
      = .ok (chunks, ⟨st.registry ++ [⟨hashFn bytes, p, n⟩], some p⟩) := by
  simp only [DocumentService.process_document, DocumentTracker.is_document_processed,
    DocumentTracker.add_document, hfs, hpdf, hparse, hany, Bool.not_true,
    Bool.false_eq_true, if_false]

/-- C1: ingestion is idempotent on file bytes. If the content hash is already
registered, `process_document` returns the empty chunk list and leaves the
state unchanged; and ingesting byte-identical files twice yields a first
normal run, a second run returning `[]` without error, and exactly one
registry record for that hash. -/
theorem process_document_idempotent :
    (∀ (hashFn : List Nat → String) (fs : String → Option (List Nat))
        (parse : String → Except String (List Chunk))
        (st : DocumentServiceState) (p n : String) (bytes : List Nat),
        fs p = some bytes →
        endsWithPdfLower p = true →
        st.registry.any (fun r => r.file_hash == hashFn bytes) = true →
        DocumentService.process_document hashFn fs parse st p n = .ok ([], st))
  ∧ (∀ (hashFn : List Nat → String) (fs : String → Option (List Nat))
        (parse : String → Except String (List Chunk))
        (st : DocumentServiceState) (p1 n1 p2 n2 : String) (bytes : List Nat)
        (chunks : List Chunk),
        fs p1 = some bytes →
        fs p2 = some bytes →
        endsWithPdfLower p1 = true →
        endsWithPdfLower p2 = true →
        parse p1 = .ok chunks →
        st.registry.countP (fun r => r.file_hash == hashFn bytes) ≤ 1 →
        ∃ (st1 : DocumentServiceState) (c1 : List Chunk),
          DocumentService.process_document hashFn fs parse st p1 n1 = .ok (c1, st1)
        ∧ DocumentService.process_document hashFn fs parse st1 p2 n2 = .ok ([], st1)
        ∧ st1.registry.countP (fun r => r.file_hash == hashFn bytes) = 1) := by
  constructor
  · exact process_document_short_circuit
  · intro hashFn fs parse st p1 n1 p2 n2 bytes chunks
      hfs1 hfs2 hpdf1 hpdf2 hparse hcount
    cases hany : st.registry.any (fun r => r.file_hash == hashFn bytes) with
    | true =>
      refine ⟨st, [], ?_, ?_, ?_⟩
      · exact process_document_short_circuit hashFn fs parse st p1 n1 bytes
          hfs1 hpdf1 hany
      · exact process_document_short_circuit hashFn fs parse st p2 n2 bytes
          hfs2 hpdf2 hany
      · have hex := List.any_eq_true.mp hany
        have hpos : 0 < st.registry.countP (fun r => r.file_hash == hashFn bytes) :=
          List.countP_pos_iff.mpr hex
        omega
    | false =>
      refine ⟨⟨st.registry ++ [⟨hashFn bytes, p1, n1⟩], some p1⟩, chunks, ?_, ?_, ?_⟩
      · exact process_document_fresh hashFn fs parse st p1 n1 bytes chunks
          hfs1 hpdf1 hparse hany
      · apply process_document_short_circuit hashFn fs parse _ p2 n2 bytes
          hfs2 hpdf2
        apply List.any_eq_true.mpr
        exact ⟨⟨hashFn bytes, p1, n1⟩, List.mem_append_right _ (List.mem_singleton.mpr rfl),
          beq_self_eq_true _⟩
      · have hzero : st.registry.countP (fun r => r.file_hash == hashFn bytes) = 0 := by
          apply List.countP_eq_zero.mpr
          intro a ha
          have := List.any_eq_false.mp hany a ha
          simpa using this
        simp [List.countP_append, hzero, List.countP_cons]

/-- Closed witness for C1: two ingestions of the same bytes from an empty
registry, and the short-circuit on a registry that already holds the hash. -/
theorem process_document_idempotent_witness :
    (∃ (st1 : DocumentServiceState) (c1 : List Chunk),
        DocumentService.process_document (fun _ => "H") (fun _ => some [7])
          (fun _ => .ok []) ⟨[], none⟩ "a.pdf" "a.pdf" = .ok (c1, st1)
      ∧ DocumentService.process_document (fun _ => "H") (fun _ => some [7])
          (fun _ => .ok []) st1 "b.pdf" "b.pdf" = .ok ([], st1)
      ∧ st1.registry.countP (fun r => r.file_hash == "H") = 1)
  ∧ DocumentService.process_document (fun _ => "H") (fun _ => some [7])
      (fun _ => .ok []) ⟨[⟨"H", "a.pdf", "a.pdf"⟩], none⟩ "a.pdf" "a.pdf"
      = .ok ([], ⟨[⟨"H", "a.pdf", "a.pdf"⟩], none⟩) := by
  constructor
  · exact process_document_idempotent.2 (fun _ => "H") (fun _ => some [7])
      (fun _ => .ok []) ⟨[], none⟩ "a.pdf" "a.pdf" "b.pdf" "b.pdf" [7] []
      rfl rfl (by decide) (by decide) rfl (by decide)
  · exact process_document_idempotent.1 (fun _ => "H") (fun _ => some [7])
      (fun _ => .ok []) ⟨[⟨"H", "a.pdf", "a.pdf"⟩], none⟩ "a.pdf" "a.pdf" [7]
      rfl (by decide) (by decide)

/-! ## VectorStoreService (src/core/vector_store_service.py)

The FAISS index is the list of stored documents; `asimilarity_search` is the
external backend parameter `search`; `json.loads` on a table's page content is
the parameter `jparse` (a parse failure is the `JSONDecodeError` branch, which
skips the document); `json.dumps` of the processed result list is the
parameter `dumps`. The `TTLCache(maxsize=100, ttl=3600)` is a list of entries
carrying their expiry instant. The returned Bool of `query` records whether
the embedding/index backend was invoked. -/

/-- A stored `langchain` Document: page content plus its metadata dict. -/
structure Doc where
  page_content : String
  dtype : Option String
  header : Option String
  headers : Option (List String)
  deriving Repr, DecidableEq

/-- One entry of the processed query results list. -/
inductive QueryResult where
  | text (content header : String)
  | table (headers : List String) (data : List (List String))
  | unknown (content : String)
  deriving Repr, DecidableEq

/-- One `TTLCache` slot: key, cached serialized value, expiry instant. -/
structure CacheEntry where
  key : String
  value : String
  expire : Int
  deriving Repr, DecidableEq

/-- `TTLCache(maxsize=100, ...)` capacity. -/
def cacheMaxsize : Nat := 100

/-- `TTLCache(..., ttl=3600)` time to live. -/
def cacheTTL : Int := 3600

/-- State of `VectorStoreService`: the optional in-memory index and the query
cache (insertion order, oldest first). -/
structure VectorStoreState where
  vector_store : Option (List Doc)
  query_cache : List CacheEntry
  deriving Repr, DecidableEq

/-- `VectorStoreService.is_loaded`: a store is loaded when it exists and holds
at least one record. -/
def VectorStoreService.is_loaded (vs : VectorStoreState) : Bool :=
  match vs.vector_store with
  | none => false
  | some docs => decide (0 < docs.length)

/-- The per-chunk conversion of `create_vector_store`: chunks whose metadata
type is neither `text` nor `table` are skipped with a warning. -/
def chunkToDoc (c : Chunk) : Option Doc :=
  if c.ctype == some "text" then
    some ⟨c.content.getD "", some "text", some (c.header.getD ""), none⟩
  else if c.ctype == some "table" then
    some ⟨c.content.getD "{}", some "table", none, some (c.headers.getD [])⟩
  else
    none

/-- `VectorStoreService.create_vector_store`: build the document list, fail
with `ValueError("No valid documents to create vector store")` when it is
empty, otherwise install the new index. -/
def VectorStoreService.create_vector_store (vs : VectorStoreState)
    (chunks : List Chunk) : Except String VectorStoreState :=
  let documents := chunks.filterMap chunkToDoc
  if documents.isEmpty then
    .error "No valid documents to create vector store"
  else
    .ok { vs with vector_store := some documents }

/-- Per-document processing inside `query`: tag text/table/unknown results; a
table whose JSON fails to parse is dropped (the `JSONDecodeError` branch). -/
def processDoc (jparse : String → Option (List (List String))) (d : Doc) :
    Option QueryResult :=
  if d.dtype == some "text" then
    some (.text d.page_content (d.header.getD ""))
  else if d.dtype == some "table" then
    match jparse d.page_content with
    | some rows => some (.table (d.headers.getD []) rows)
    | none => none
  else
    some (.unknown d.page_content)

/-- `query_text in self.query_cache` followed by the read: a hit requires an
entry with exactly that key that has not yet expired. -/
def cacheLookup (cache : List CacheEntry) (k : String) (now : Int) : Option String :=
  match cache.find? (fun e => e.key == k && decide (now < e.expire)) with
  | some e => some e.value
  | none => none

/-- The expiry purge a `TTLCache` performs before writing. -/
def cachePurged (cache : List CacheEntry) (now : Int) : List CacheEntry :=
  cache.filter (fun e => decide (now < e.expire))

/-- The purged cache with any old binding of the key removed. -/
def cacheWithout (cache : List CacheEntry) (k : String) (now : Int) : List CacheEntry :=
  (cachePurged cache now).filter (fun e => !(e.key == k))

/-- The cache after capacity eviction (oldest entries dropped) to make room
for one more entry. -/
def cacheEvicted (cache : List CacheEntry) (k : String) (now : Int) : List CacheEntry :=
  let without := cacheWithout cache k now
  if cacheMaxsize ≤ without.length then
    without.drop (without.length + 1 - cacheMaxsize)
  else without

/-- `self.query_cache[query_text] = value` on a `TTLCache`: purge expired
entries, drop any old binding of the key, evict oldest entries if the cache
is full, then append the new entry with expiry `now + ttl`. -/
def cacheInsert (cache : List CacheEntry) (k v : String) (now : Int) :
    List CacheEntry :=
  cacheEvicted cache k now ++ [⟨k, v, now + cacheTTL⟩]

/-- `VectorStoreService.query`: serve a fresh cached value if present (before
any state check), otherwise fail when no index was ever created or loaded,
otherwise run the similarity search, process and serialize the results, cache
and return the serialized string. The Bool is true iff the backend ran. -/
def VectorStoreService.query (search : List Doc → String → List Doc)
    (jparse : String → Option (List (List String)))
    (dumps : List QueryResult → String)
    (vs : VectorStoreState) (now : Int) (query_text : String) :
    Except String (String × VectorStoreState × Bool) :=
  match cacheLookup vs.query_cache query_text now with
  | some v => .ok (v, vs, false)
  | none =>
    match vs.vector_store with
    | none => .error "Vector store has not been created or loaded yet."
    | some docs =>
      let results := search docs query_text
      let processed := results.filterMap (processDoc jparse)
      let out := dumps processed
      .ok (out, { vs with query_cache := cacheInsert vs.query_cache query_text out now }, true)

/-- States of one `VectorStoreService` instance reachable from `__init__`
(no store, empty cache) by successful create/load/query operations; a failing
operation raises and leaves the state unchanged, so it adds no new state. -/
inductive VSReachable (search : List Doc → String → List Doc)
    (jparse : String → Option (List (List String)))
    (dumps : List QueryResult → String) : VectorStoreState → Prop where
  | init : VSReachable search jparse dumps ⟨none, []⟩
  | create {s s' : VectorStoreState} {chunks : List Chunk} :
      VSReachable search jparse dumps s →
      VectorStoreService.create_vector_store s chunks = .ok s' →
      VSReachable search jparse dumps s'
  | load {s : VectorStoreState} {docs : List Doc} :
      VSReachable search jparse dumps s →
      VSReachable search jparse dumps { s with vector_store := some docs }
  | query_step {s s' : VectorStoreState} {now : Int} {q out : String} {b : Bool} :
      VSReachable search jparse dumps s →
      VectorStoreService.query search jparse dumps s now q = .ok (out, s', b) →
      VSReachable search jparse dumps s'

theorem create_vector_store_ok_store (vs vs' : VectorStoreState) (chunks : List Chunk)
    (h : VectorStoreService.create_vector_store vs chunks = .ok vs') :
    vs'.vector_store = some (chunks.filterMap chunkToDoc) := by
  simp only [VectorStoreService.create_vector_store] at h
  by_cases hemp : (chunks.filterMap chunkToDoc).isEmpty
  · rw [if_pos hemp] at h
    exact absurd h (by simp)
  · rw [if_neg hemp] at h
    have := Except.ok.inj h
    rw [← this]

theorem query_ok_cases (search : List Doc → String → List Doc)
    (jparse : String → Option (List (List String)))
    (dumps : List QueryResult → String)
    (vs vs' : VectorStoreState) (now : Int) (q out : String) (b : Bool)
    (h : VectorStoreService.query search jparse dumps vs now q = .ok (out, vs', b)) :
    (vs' = vs ∧ b = false ∧ cacheLookup vs.query_cache q now = some out)
  ∨ (∃ docs, vs.vector_store = some docs
      ∧ vs'.vector_store = some docs
      ∧ vs'.query_cache = cacheInsert vs.query_cache q out now
      ∧ b = true) := by
  simp only [VectorStoreService.query] at h
  cases hcl : cacheLookup vs.query_cache q now with
  | some v =>
    rw [hcl] at h
    simp only [Except.ok.injEq, Prod.mk.injEq] at h
    obtain ⟨h1, h2, h3⟩ := h
    subst h2
    left
    refine ⟨rfl, h3.symm, ?_⟩
    rw [h1]
  | none =>
    rw [hcl] at h
    cases hvs : vs.vector_store with
    | none => rw [hvs] at h; exact absurd h (by simp)
    | some docs =>
      rw [hvs] at h
      simp only [Except.ok.injEq, Prod.mk.injEq] at h
      obtain ⟨h1, h2, h3⟩ := h
      subst h2
      right
      refine ⟨docs, rfl, rfl, ?_, h3.symm⟩
      simp only
      rw [h1]

theorem reachable_none_cache_empty (search : List Doc → String → List Doc)
    (jparse : String → Option (List (List String)))
    (dumps : List QueryResult → String) (s : VectorStoreState)
    (h : VSReachable search jparse dumps s) (hnone : s.vector_store = none) :
    s.query_cache = [] := by
  induction h with
  | init => rfl
  | create hr hok ih =>
    have := create_vector_store_ok_store _ _ _ hok
    rw [hnone] at this
    exact absurd this (by simp)
  | load hr ih => exact absurd hnone (by simp)
  | query_step hr hok ih =>
    rcases query_ok_cases _ _ _ _ _ _ _ _ _ hok with ⟨heq, _, _⟩ | ⟨docs, _, hsome, _, _⟩
    · subst heq; exact ih hnone
    · rw [hnone] at hsome
      exact absurd hsome (by simp)

/-- C4: in any state of a `VectorStoreService` instance in which the index was
never built and never loaded, `query` fails with the not-built `ValueError`
for every query text and every time — in particular no cached answer can be
served, because the cache is necessarily empty in such a state. -/
theorem query_fails_when_never_built (search : List Doc → String → List Doc)
    (jparse : String → Option (List (List String)))
    (dumps : List QueryResult → String) (s : VectorStoreState)
    (hreach : VSReachable search jparse dumps s)
    (hnone : s.vector_store = none) (now : Int) (q : String) :
    VectorStoreService.query search jparse dumps s now q
      = .error "Vector store has not been created or loaded yet." := by
  have hcache := reachable_none_cache_empty search jparse dumps s hreach hnone
  simp only [VectorStoreService.query, hcache, cacheLookup, List.find?_nil, hnone]

/-- Closed witness for C4 at the initial state of an instance. -/
theorem query_fails_when_never_built_witness :
    VectorStoreService.query (fun _ _ => []) (fun _ => none) (fun _ => "")
      ⟨none, []⟩ 0 "question"
      = .error "Vector store has not been created or loaded yet." :=
  query_fails_when_never_built (fun _ _ => []) (fun _ => none) (fun _ => "")
    ⟨none, []⟩ VSReachable.init rfl 0 "question"

theorem find?_append_of_none {α : Type} (p : α → Bool) (l1 l2 : List α)
    (h : l1.find? p = none) : (l1 ++ l2).find? p = l2.find? p := by
  induction l1 with
  | nil => rfl
  | cons a rest ih =>
    simp only [List.find?] at h ⊢
    cases hp : p a with
    | true => rw [hp] at h; exact absurd h (by simp)
    | false =>
      rw [hp] at h
      simp only [List.cons_append, List.find?, hp]
      exact ih h

theorem cacheEvicted_key_ne (cache : List CacheEntry) (k : String) (now : Int) :
    ∀ e ∈ cacheEvicted cache k now, (e.key == k) = false := by
  intro e he
  have hw : e ∈ cacheWithout cache k now := by
    simp only [cacheEvicted] at he
    by_cases hc : cacheMaxsize ≤ (cacheWithout cache k now).length
    · rw [if_pos hc] at he
      exact List.mem_of_mem_drop he
    · rw [if_neg hc] at he
      exact he
  have := (List.mem_filter.mp hw).2
  simpa using this

theorem cacheLookup_insert_self (cache : List CacheEntry) (k v : String)
    (ins t : Int) (h : t < ins + cacheTTL) :
    cacheLookup (cacheInsert cache k v ins) k t = some v := by
  have hfront : (cacheEvicted cache k ins).find?
      (fun e => e.key == k && decide (t < e.expire)) = none := by
    apply List.find?_eq_none.mpr
    intro e he
    have := cacheEvicted_key_ne cache k ins e he
    simp [this]
  simp only [cacheLookup, cacheInsert]
  rw [find?_append_of_none _ _ _ hfront]
  simp [List.find?, h]

/-- C7: an identical query text issued again strictly within the TTL of the
entry a backend-invoking call just cached is answered from the cache: the
byte-identical serialized string is returned, the state is untouched and the
backend is not invoked (the Bool is false). The cache is keyed by exact text
equality (`cacheLookup` compares keys with `==`). -/
theorem query_cache_hit_within_ttl (search : List Doc → String → List Doc)
    (jparse : String → Option (List (List String)))
    (dumps : List QueryResult → String) (s s' : VectorStoreState)
    (t1 t2 : Int) (q v : String)
    (h1 : VectorStoreService.query search jparse dumps s t1 q = .ok (v, s', true))
    (h2 : t2 < t1 + cacheTTL) :
    VectorStoreService.query search jparse dumps s' t2 q = .ok (v, s', false) := by
  rcases query_ok_cases _ _ _ _ _ _ _ _ _ h1 with ⟨_, hb, _⟩ | ⟨docs, hdocs, hsome, hcache, _⟩
  · exact absurd hb (by simp)
  · have hl : cacheLookup s'.query_cache q t2 = some v := by
      rw [hcache]
      exact cacheLookup_insert_self _ _ _ _ _ h2
    simp only [VectorStoreService.query, hl]

/-- Closed witness for C7: a fresh backend-invoking query at time 0 followed
by the identical query at time 100 (within the 3600-second TTL). -/
theorem query_cache_hit_within_ttl_witness :
    VectorStoreService.query (fun docs _ => docs) (fun _ => none) (fun _ => "ANSWER")
      ⟨some [⟨"content", some "text", some "h", none⟩], [⟨"what", "ANSWER", 3600⟩]⟩
      100 "what"
      = .ok ("ANSWER",
          ⟨some [⟨"content", some "text", some "h", none⟩], [⟨"what", "ANSWER", 3600⟩]⟩,
          false) :=
  query_cache_hit_within_ttl (fun docs _ => docs) (fun _ => none) (fun _ => "ANSWER")
    ⟨some [⟨"content", some "text", some "h", none⟩], []⟩
    ⟨some [⟨"content", some "text", some "h", none⟩], [⟨"what", "ANSWER", 3600⟩]⟩
    0 100 "what" "ANSWER" rfl (by decide)

theorem chunkToDoc_eq_none_iff (c : Chunk) :
    chunkToDoc c = none ↔ (c.ctype ≠ some "text" ∧ c.ctype ≠ some "table") := by
  simp only [chunkToDoc]
  by_cases ht : c.ctype = some "text"
  · simp [ht]
  · by_cases hb : c.ctype = some "table"
    · simp [ht, hb]
    · simp [ht, hb]

/-- C10: building the vector store fails with the no-valid-documents error
exactly when no chunk in the input has metadata type `text` or `table` —
chunks of any other type are silently skipped, so this covers the empty list
and every non-empty list of only unknown-type chunks; conversely the build
succeeds as soon as one `text` or `table` chunk is present. -/
theorem create_vector_store_fails_iff_no_valid_chunk (vs : VectorStoreState)
    (chunks : List Chunk) :
    VectorStoreService.create_vector_store vs chunks
        = .error "No valid documents to create vector store"
      ↔ ∀ c ∈ chunks, c.ctype ≠ some "text" ∧ c.ctype ≠ some "table" := by
  constructor
  · intro h c hc
    by_cases hemp : (chunks.filterMap chunkToDoc).isEmpty
    · have hnil : chunks.filterMap chunkToDoc = [] := by
        simpa [List.isEmpty_iff] using hemp
      have := List.filterMap_eq_nil_iff.mp hnil c hc
      exact (chunkToDoc_eq_none_iff c).mp this
    · simp only [VectorStoreService.create_vector_store, if_neg hemp] at h
      exact absurd h (by simp)
  · intro hall
    have hnil : chunks.filterMap chunkToDoc = [] :=
      List.filterMap_eq_nil_iff.mpr (fun c hc => (chunkToDoc_eq_none_iff c).mpr (hall c hc))
    simp [VectorStoreService.create_vector_store, hnil]

/-- Closed witness for C10: a single image-type chunk yields the
no-valid-documents error. -/
theorem create_vector_store_fails_iff_no_valid_chunk_witness :
    VectorStoreService.create_vector_store ⟨none, []⟩
      [⟨some "pixels", some "image", none, none⟩]
      = .error "No valid documents to create vector store" :=
  (create_vector_store_fails_iff_no_valid_chunk ⟨none, []⟩
    [⟨some "pixels", some "image", none, none⟩]).mpr (by decide)

/-! ## LLMHandler._evaluate_answer_quality (src/core/llm_handler.py, lines 146-176)

The readability collaborator `fre` models `textstat.flesch_reading_ease`; the
four factors and the final cap mirror the source. Python truthiness of the
optional `context` argument makes the empty string count as absent. -/

/-- The fixed keyword list of factor 2. -/
def answerKeywords : List String :=
  ["MONEYME", "financial", "loan", "income", "assets", "strategy"]

/-- Factor 1: `min(len(answer.split()) // 10, 5)`. -/
def length_score (answer : String) : ℤ :=
  min (((pyWords answer).length : ℤ) / 10) 5

/-- Factor 2: `min(sum(k.lower() in answer.lower() for k in keywords), 3)`. -/
def keyword_score (answer : String) : ℤ :=
  min ((answerKeywords.countP
    (fun k => strIn (k.toList.map Char.toLower) (answer.toList.map Char.toLower)) : ℤ)) 3

/-- Factor 3: `+2` when `flesch_reading_ease(answer) > 60`. -/
def readability_score (fre : String → ℚ) (answer : String) : ℤ :=
  if 60 < fre answer then 2 else 0

/-- Factor 4: `min(sum(w.lower() in context.lower() for w in answer.split()) // 5, 3)`
when a (truthy) context is supplied, else 0. -/
def relevance_score (answer : String) : Option String → ℤ
  | none => 0
  | some ctx =>
    if ctx = "" then 0
    else
      min (((pyWords answer).countP
        (fun w => strIn (w.map Char.toLower) (ctx.toList.map Char.toLower)) : ℤ) / 5) 3

/-- `LLMHandler._evaluate_answer_quality`: the sum of the four factors, capped
at 10. A pure function of its arguments. -/
def evaluate_answer_quality (fre : String → ℚ) (answer : String)
    (context : Option String) : ℤ :=
  min (length_score answer + keyword_score answer
    + readability_score fre answer + relevance_score answer context) 10

theorem length_score_nonneg (answer : String) : 0 ≤ length_score answer := by
  apply le_min _ (by norm_num)
  positivity

theorem keyword_score_nonneg (answer : String) : 0 ≤ keyword_score answer :=
  le_min (Int.natCast_nonneg _) (by norm_num)

theorem readability_score_nonneg (fre : String → ℚ) (answer : String) :
    0 ≤ readability_score fre answer := by
  simp only [readability_score]
  split_ifs <;> norm_num

theorem relevance_score_nonneg (answer : String) (context : Option String) :
    0 ≤ relevance_score answer context := by
  cases context with
  | none => simp [relevance_score]
  | some ctx =>
    simp only [relevance_score]
    split_ifs
    · norm_num
    · apply le_min _ (by norm_num)
      positivity

/-- C8 counterexample: with the readability collaborator behaving as textstat
does on empty text — `flesch_reading_ease("")` is 206.835, because both the
average sentence length and the average syllables per word hit the
zero-division guard and contribute 0 — the empty answer scores 2, not 0. -/
theorem evaluate_empty_answer_scores_two :
    evaluate_answer_quality (fun _ => 206835 / 1000) "" none = 2 ∧ (2 : ℤ) ≠ 0 := by
  refine ⟨?_, by decide⟩
  simp only [evaluate_answer_quality, readability_score]
  rw [if_pos (by norm_num : (60 : ℚ) < 206835 / 1000)]
  rw [show length_score "" = 0 from by decide,
    show keyword_score "" = 0 from by decide,
    show relevance_score "" none = 0 from rfl]
  decide

/-- C8 amended: the scorer is a pure function whose result lies in [0, 10] for
every answer, every optional context and every readability collaborator,
computed as the capped sum of the four factors; the empty answer scores 2 (not
0) whenever the readability collaborator rates empty text above 60, as
textstat does. -/
theorem evaluate_answer_quality_bounded :
    (∀ (fre : String → ℚ) (answer : String) (context : Option String),
        0 ≤ evaluate_answer_quality fre answer context
      ∧ evaluate_answer_quality fre answer context ≤ 10)
  ∧ (∀ fre : String → ℚ, 60 < fre "" →
        evaluate_answer_quality fre "" none = 2) := by
  constructor
  · intro fre answer context
    constructor
    · apply le_min _ (by norm_num)
      have h1 := length_score_nonneg answer
      have h2 := keyword_score_nonneg answer
      have h3 := readability_score_nonneg fre answer
      have h4 := relevance_score_nonneg answer context
      omega
    · exact min_le_right _ _
  · intro fre h
    simp only [evaluate_answer_quality, readability_score, if_pos h]
    rw [show length_score "" = 0 from by decide,
      show keyword_score "" = 0 from by decide,
      show relevance_score "" none = 0 from rfl]
    decide

/-- Closed witness for C8's amended theorem at concrete inputs. -/
theorem evaluate_answer_quality_bounded_witness :
    (0 ≤ evaluate_answer_quality (fun _ => 0) "hello world" none
      ∧ evaluate_answer_quality (fun _ => 0) "hello world" none ≤ 10)
  ∧ evaluate_answer_quality (fun _ => 70) "" none = 2 :=
  ⟨evaluate_answer_quality_bounded.1 (fun _ => 0) "hello world" none,
   evaluate_answer_quality_bounded.2 (fun _ => 70) (by norm_num)⟩

/-! ## QASystem.process_chat_query (src/core/qa_system.py, lines 63-109)

State of the orchestrator: the vector store service, the QASystem's own
conversation manager, and the LLMHandler's private conversation manager.
`genResp` stands for `LLMHandler.generate_response` (which wraps the external
LLM call and may touch only its own manager); `recover` stands for the
load-from-disk branch of `_ensure_vector_store_loaded`; `newUuid` is the
`uuid.uuid4()` drawn when no session id was supplied. -/

/-- Combined mutable state of one `QASystem` instance. -/
structure QAState where
  vs : VectorStoreState
  cm : ConversationManager
  llmCm : ConversationManager
  deriving Repr, DecidableEq

/-- The response dict assembled by `process_chat_query`. -/
structure ChatOut where
  session_id : String
  answer : String
  quality_score : ℤ
  conversation_history : List (String × String)
  deriving Repr, DecidableEq

/-- The tail of `process_chat_query` once a session id is fixed: invoke
generation, surface its error dict as `QASystemError`, otherwise append the
question and the answer to the conversation manager and assemble the
response. -/
def QASystem.chatGenerate
    (genResp : ConversationManager → String → String → String →
      (Except String (String × ℤ)) × ConversationManager)
    (now : Int) (st : QAState) (sid question context : String) :
    (Except String ChatOut) × QAState :=
  match genResp st.llmCm sid context question with
  | (.error e, llmCm1) => (.error e, { st with llmCm := llmCm1 })
  | (.ok (answer, qscore), llmCm1) =>
    let cm1 := (st.cm.add_message sid "user" question now).add_message
      sid "assistant" answer now
    let hist := (cm1.get_conversation sid).map (fun m => (m.role, m.content))
    (.ok ⟨sid, answer, qscore, hist⟩, { st with cm := cm1, llmCm := llmCm1 })

/-- `QASystem.process_chat_query` with no `pdf_path`: ensure the store is
loaded (recovering from disk if not), retrieve context, then — only after
retrieval — validate the session id: generate a fresh UUID when it is absent,
raise `QASystemError("Invalid session ID format")` when it is supplied but
malformed, and only then generate and record history. -/
def QASystem.process_chat_query (search : List Doc → String → List Doc)
    (jparse : String → Option (List (List String)))
    (dumps : List QueryResult → String)
    (genResp : ConversationManager → String → String → String →
      (Except String (String × ℤ)) × ConversationManager)
    (recover : VectorStoreState → Except String VectorStoreState)
    (newUuid : String) (now : Int)
    (st : QAState) (session_id question : String) :
    (Except String ChatOut) × QAState :=
  match (if VectorStoreService.is_loaded st.vs then .ok st.vs else recover st.vs :
      Except String VectorStoreState) with
  | .error e => (.error e, st)
  | .ok vs0 =>
    match VectorStoreService.query search jparse dumps vs0 now question with
    | .error e => (.error ("An unexpected error occurred: " ++ e), { st with vs := vs0 })
    | .ok (context, vs1, _) =>
      if session_id = "" then
        QASystem.chatGenerate genResp now { st with vs := vs1 } newUuid question context
      else if uuid_valid session_id then
        QASystem.chatGenerate genResp now { st with vs := vs1 } session_id question context
      else
        (.error "Invalid session ID format", { st with vs := vs1 })

theorem query_ok_of_loaded (search : List Doc → String → List Doc)
    (jparse : String → Option (List (List String)))
    (dumps : List QueryResult → String) (vs : VectorStoreState)
    (hloaded : VectorStoreService.is_loaded vs = true) (now : Int) (q : String) :
    ∃ out vs' b, VectorStoreService.query search jparse dumps vs now q
      = .ok (out, vs', b) := by
  cases hcl : cacheLookup vs.query_cache q now with
  | some v =>
    exact ⟨v, vs, false, by simp only [VectorStoreService.query, hcl]⟩
  | none =>
    cases hvs : vs.vector_store with
    | none => simp [VectorStoreService.is_loaded, hvs] at hloaded
    | some docs =>
      refine ⟨dumps ((search docs q).filterMap (processDoc jparse)),
        VectorStoreState.mk vs.vector_store
          (cacheInsert vs.query_cache q
            (dumps ((search docs q).filterMap (processDoc jparse))) now),
        true, ?_⟩
      simp only [VectorStoreService.query, hcl, hvs]

/-- C9: in chat mode, when the vector store is loaded and a non-empty but
malformed session id is supplied, the request fails with the
invalid-session-id error and the conversation stores (both the orchestrator's
and the LLM handler's) are exactly as before — no history entry is written.
Only the vector store component may differ (the retrieval step may cache). -/
theorem chat_query_invalid_session_id (search : List Doc → String → List Doc)
    (jparse : String → Option (List (List String)))
    (dumps : List QueryResult → String)
    (genResp : ConversationManager → String → String → String →
      (Except String (String × ℤ)) × ConversationManager)
    (recover : VectorStoreState → Except String VectorStoreState)
    (newUuid : String) (now : Int) (st : QAState) (session_id question : String)
    (hloaded : VectorStoreService.is_loaded st.vs = true)
    (hne : session_id ≠ "")
    (hbad : uuid_valid session_id = false) :
    ∃ vs1, QASystem.process_chat_query search jparse dumps genResp recover newUuid
        now st session_id question
      = (.error "Invalid session ID format", { st with vs := vs1 }) := by
  obtain ⟨out, vs1, b, hq⟩ :=
    query_ok_of_loaded search jparse dumps st.vs hloaded now question
  refine ⟨vs1, ?_⟩
  simp only [QASystem.process_chat_query, hloaded, if_true, hq, if_neg hne]
  rw [if_neg (by simp [hbad])]

/-- Closed witness for C9: session id `"not-a-uuid"` against a loaded store. -/
theorem chat_query_invalid_session_id_witness :
    ∃ vs1, QASystem.process_chat_query (fun docs _ => docs) (fun _ => none)
        (fun _ => "CTX") (fun llm _ _ _ => (.ok ("A", 0), llm)) (fun v => .ok v)
        "" 0
        ⟨⟨some [⟨"c", some "text", some "h", none⟩], []⟩, ⟨10, []⟩, ⟨10, []⟩⟩
        "not-a-uuid" "q"
      = (.error "Invalid session ID format",
          { (⟨⟨some [⟨"c", some "text", some "h", none⟩], []⟩, ⟨10, []⟩, ⟨10, []⟩⟩ : QAState)
              with vs := vs1 }) :=
  chat_query_invalid_session_id (fun docs _ => docs) (fun _ => none) (fun _ => "CTX")
    (fun llm _ _ _ => (.ok ("A", 0), llm)) (fun v => .ok v) "" 0
    ⟨⟨some [⟨"c", some "text", some "h", none⟩], []⟩, ⟨10, []⟩, ⟨10, []⟩⟩
    "not-a-uuid" "q" (by decide) (by decide) (by decide)
